import Mathlib

/-!
Shallow embedding of `src/arduino/serialctrl.cpp`, a minimal packed-struct
serial framing snippet: one read operation over a byte stream, an XOR
checksum helper, and a diagnostic print routine.

Bytes are modelled as `Nat` (all wire values are below 256; `Nat.xor` of
such values stays below 256, and the 16-bit field is assembled from two
bytes, so no machine-integer wraparound arises in any modelled operation).
The serial port is modelled as an explicit state: the buffered incoming
bytes, the list of text lines printed so far (`Serial.println`), and the
raw response bytes written so far (`Serial.write`, used only by the
commented-out `writeStruct` path, hence never appended to here).
-/

namespace SerialCtrl

/-- Embedding of the packed C struct `controlMessage`
(`uint16_t value1; uint8_t checksum;`, 3 bytes, no padding). -/
structure controlMessage where
  value1 : Nat
  checksum : Nat
  deriving Repr, DecidableEq

/-- Embedding of the packed C struct `sensorMessage`
(`uint8_t checksum; uint16_t value2;`). Only referenced by commented-out
code in `runget`; modelled for the frame condition. -/
structure sensorMessage where
  checksum : Nat
  value2 : Nat
  deriving Repr, DecidableEq

/-- State of the `HardwareSerial` object: buffered incoming bytes,
diagnostic text lines printed so far, and raw response bytes written. -/
structure SerialState where
  buffer : List Nat
  output : List String
  responseBytes : List Nat
  deriving Repr, DecidableEq

/-- Embedding of `Serial.available()`: number of buffered bytes. -/
def available (s : SerialState) : Nat := s.buffer.length

/-- Embedding of `Serial.println(x)` for an integral `x`: appends the
decimal rendering of `x` as one text line. -/
def println (s : SerialState) (x : Nat) : SerialState :=
  { s with output := s.output ++ [toString x] }

/-- Embedding of `readStruct_(Serial, s, ssize)`: if at least `ssize`
bytes are available it reads exactly `ssize` bytes (returning them, with
the read cursor advanced) and reports `true`; otherwise it reports
`false`, returns no bytes and leaves the state untouched. -/
def readStruct_ (s : SerialState) (ssize : Nat) : Bool × List Nat × SerialState :=
  if ssize ≤ available s then
    (true, s.buffer.take ssize, { s with buffer := s.buffer.drop ssize })
  else
    (false, [], s)

/-- Size in bytes of the packed `controlMessage` struct
(`sizeof(controlMessage)` = 2 + 1 = 3, packed, no padding). -/
def controlMessageSize : Nat := 3

/-- Decoding of 3 raw bytes into a `controlMessage`, modelling
`Serial.readBytes((char*)&cMsg, 3)` filling the packed struct on the
little-endian AVR target: bytes 0 and 1 form `value1` (low byte first),
byte 2 is `checksum`. -/
def decodeControlMessage (bytes : List Nat) : controlMessage :=
  { value1 := bytes.getD 0 0 + 256 * bytes.getD 1 0
    checksum := bytes.getD 2 0 }

/-- Embedding of `readStruct(Serial, cMsg)` viewed as the spec's
`tryReadRecord`: attempt to read one `controlMessage` from the source,
returning the decoded record on success and nothing when fewer than
`sizeof(controlMessage)` bytes are buffered. -/
def tryReadRecord (s : SerialState) : Option controlMessage × SerialState :=
  match readStruct_ s controlMessageSize with
  | (true, bs, s1) => (some (decodeControlMessage bs), s1)
  | (false, _, s1) => (none, s1)

/-- Embedding of `checksum(uint8_t* data, int length)`: returns 0 when
`length == 0`, otherwise seeds `csum` with `data[0]` and folds
`csum = csum ^ data[i]` for `i = 1 .. length-1`. Out-of-range reads are
modelled as 0 (the claims only use in-range accesses). -/
def checksum (data : List Nat) (length : Nat) : Nat :=
  if length = 0 then 0
  else (List.range (length - 1)).foldl
    (fun csum i => csum ^^^ data.getD (i + 1) 0) (data.getD 0 0)

/-- Global mutable state touched by `runget`: the serial object and the
two global struct instances `cMsg` and `sMsg`. -/
structure runState where
  serial : SerialState
  cMsg : controlMessage
  sMsg : sensorMessage
  deriving Repr, DecidableEq

/-- Embedding of `runget(Serial)`: attempts `readStruct(Serial, cMsg)`;
on success prints `cMsg.checksum` then `cMsg.value1` as decimal lines and
stores the record in the global `cMsg`. The response path
(`sMsg` assignment and `writeStruct`) is commented out in the source and
therefore absent here. -/
def runget (st : runState) : runState :=
  let r := tryReadRecord st.serial
  match r.1 with
  | some m =>
      { st with
        serial := println (println r.2 m.checksum) m.value1
        cMsg := m }
  | none => { st with serial := r.2 }

/-! Helper lemmas shared by the claim theorems. -/

/-- Reading with fewer than `ssize` bytes buffered fails and leaves the
state unchanged. -/
lemma readStruct_not_ready (s : SerialState) (ssize : Nat)
    (h : available s < ssize) : readStruct_ s ssize = (false, [], s) := by
  simp [readStruct_, Nat.not_le.mpr h]

/-- Reading with at least `ssize` bytes buffered succeeds, returns the
first `ssize` bytes and drops them from the buffer. -/
lemma readStruct_ready (s : SerialState) (ssize : Nat)
    (h : ssize ≤ available s) :
    readStruct_ s ssize =
      (true, s.buffer.take ssize, { s with buffer := s.buffer.drop ssize }) := by
  simp [readStruct_, h]

/-- `tryReadRecord` with fewer than 3 buffered bytes returns nothing and
leaves the state unchanged. -/
lemma tryRead_lt (s : SerialState) (h : s.buffer.length < 3) :
    tryReadRecord s = (none, s) := by
  rw [tryReadRecord, readStruct_not_ready s controlMessageSize h]

/-- `tryReadRecord` on an explicit buffer of three or more bytes returns
the decoded record and drops exactly those three bytes. -/
lemma tryRead_cons (b0 b1 b2 : Nat) (rest : List Nat) (out : List String)
    (resp : List Nat) :
    tryReadRecord ⟨b0 :: b1 :: b2 :: rest, out, resp⟩ =
      (some ⟨b0 + 256 * b1, b2⟩, ⟨rest, out, resp⟩) := by
  have h : controlMessageSize ≤ available ⟨b0 :: b1 :: b2 :: rest, out, resp⟩ := by
    simp [available, controlMessageSize]
  rw [tryReadRecord, readStruct_ready _ _ h]
  simp [decodeControlMessage, controlMessageSize]

/-- Any list of length at least 3 has the shape `b0 :: b1 :: b2 :: rest`. -/
lemma exists_cons_of_len3 (l : List Nat) (h : 3 ≤ l.length) :
    ∃ b0 b1 b2 rest, l = b0 :: b1 :: b2 :: rest := by
  match l, h with
  | b0 :: b1 :: b2 :: rest, _ => exact ⟨b0, b1, b2, rest, rfl⟩

/-- The state returned by `tryReadRecord` keeps the original output lines
and response bytes; only the input buffer may change. -/
lemma tryRead_frame (s : SerialState) :
    (tryReadRecord s).2.output = s.output ∧
      (tryReadRecord s).2.responseBytes = s.responseBytes := by
  by_cases h : controlMessageSize ≤ available s <;>
    simp [tryReadRecord, readStruct_, h]

/-- Folding XOR accesses of a list by index over `List.range` equals the
direct left fold of XOR over the list. -/
lemma foldl_range_getD (l : List Nat) (a : Nat) :
    (List.range l.length).foldl (fun csum i => csum ^^^ l.getD i 0) a =
      l.foldl (· ^^^ ·) a := by
  induction l generalizing a with
  | nil => rfl
  | cons x xs ih =>
    rw [List.length_cons, List.range_succ_eq_map, List.foldl_cons, List.foldl_map]
    simpa using ih (a ^^^ x)

/-- The C `checksum` on a full buffer equals the left XOR fold of the
buffer seeded with 0. -/
lemma checksum_eq_foldl (data : List Nat) :
    checksum data data.length = data.foldl (· ^^^ ·) 0 := by
  cases data with
  | nil => rfl
  | cons d rest =>
    rw [checksum]
    simp only [List.length_cons, Nat.add_sub_cancel, List.getD_cons_zero]
    have he : (List.range rest.length).foldl
        (fun csum i => csum ^^^ (d :: rest).getD (i + 1) 0) d =
        (List.range rest.length).foldl
        (fun csum i => csum ^^^ rest.getD i 0) d := by
      simp [List.getD_cons_succ]
    rw [if_neg (by simp), he, foldl_range_getD, List.foldl_cons, Nat.zero_xor]

/-- Left XOR fold with an arbitrary seed factors through the seed. -/
lemma foldl_xor_seed (l : List Nat) (a : Nat) :
    l.foldl (· ^^^ ·) a = a ^^^ l.foldl (· ^^^ ·) 0 := by
  induction l generalizing a with
  | nil => simp
  | cons x xs ih =>
    rw [List.foldl_cons, List.foldl_cons, ih (a ^^^ x), ih ((0 : Nat) ^^^ x),
      Nat.zero_xor, Nat.xor_assoc]

/-- Left XOR fold from 0 is invariant under permutation of the list. -/
lemma foldl_xor_perm (l l' : List Nat) (h : l.Perm l') :
    l.foldl (· ^^^ ·) 0 = l'.foldl (· ^^^ ·) 0 := by
  induction h with
  | nil => rfl
  | cons x _ ih =>
    rw [List.foldl_cons, List.foldl_cons, foldl_xor_seed, ih, ← foldl_xor_seed]
  | swap x y l =>
    rw [List.foldl_cons, List.foldl_cons, List.foldl_cons, List.foldl_cons,
      Nat.zero_xor, Nat.zero_xor, Nat.xor_comm]
  | trans _ _ ih1 ih2 => exact ih1.trans ih2

/-! Claim theorems. -/

/-- C1: for every buffered byte sequence of length at least 3 (that is,
of the shape `b0 :: b1 :: b2 :: rest`), `tryReadRecord` consumes exactly
3 bytes and returns a record whose `value1` equals the little-endian
interpretation `b0 + 256 * b1` of bytes 0 and 1 and whose `checksum`
equals byte 2. -/
theorem C1_read_succeeds (b0 b1 b2 : Nat) (rest : List Nat)
    (out : List String) (resp : List Nat) :
    tryReadRecord ⟨b0 :: b1 :: b2 :: rest, out, resp⟩ =
      (some ⟨b0 + 256 * b1, b2⟩, ⟨rest, out, resp⟩) ∧
    available ⟨b0 :: b1 :: b2 :: rest, out, resp⟩ =
      available ⟨rest, out, resp⟩ + 3 := by
  refine ⟨tryRead_cons b0 b1 b2 rest out resp, ?_⟩
  simp [available]

/-- C2: for every buffered byte sequence of length below 3,
`tryReadRecord` returns nothing and consumes no bytes: the serial state
is returned unchanged. -/
theorem C2_not_ready (s : SerialState) (h : s.buffer.length < 3) :
    tryReadRecord s = (none, s) :=
  tryRead_lt s h

/-- Witness for C2 at the concrete two-byte buffer `[1, 2]`. -/
theorem C2_not_ready_witness :
    tryReadRecord ⟨[1, 2], [], []⟩ = (none, ⟨[1, 2], [], []⟩) :=
  C2_not_ready ⟨[1, 2], [], []⟩ (by decide)

/-- C3: every call to `tryReadRecord` either consumes zero bytes (when
fewer than `sizeof(controlMessage) = 3` bytes are available, returning
no record) or consumes exactly 3 bytes and yields a record; a partial
consume of 1 or 2 bytes never occurs, and a record is decoded only once
`available() >= 3`. -/
theorem C3_all_or_nothing (s : SerialState) :
    (available s < controlMessageSize ∧ tryReadRecord s = (none, s)) ∨
    (controlMessageSize ≤ available s ∧ ((tryReadRecord s).1).isSome = true ∧
      (tryReadRecord s).2.buffer = s.buffer.drop controlMessageSize ∧
      available s = available (tryReadRecord s).2 + controlMessageSize) := by
  obtain ⟨buf, out, resp⟩ := s
  by_cases h : 3 ≤ buf.length
  · right
    obtain ⟨b0, b1, b2, rest, hb⟩ := exists_cons_of_len3 buf h
    subst hb
    rw [tryRead_cons]
    refine ⟨by simp [available, controlMessageSize], rfl, rfl, ?_⟩
    simp [available, controlMessageSize]
  · left
    have hlt : buf.length < 3 := Nat.lt_of_not_le h
    exact ⟨by simpa [available, controlMessageSize] using hlt,
      tryRead_lt _ hlt⟩

/-- C4: `checksum` computes the running XOR fold of the buffer's bytes:
it returns 0 on the empty sequence and the XOR of all bytes otherwise,
with the concrete values `checksum [] = 0`, `checksum [0x05] = 0x05`,
`checksum [0x0F, 0xF0] = 0xFF` and `checksum [0x01, 0x02, 0x03] = 0`. -/
theorem C4_checksum_is_xor_fold :
    (∀ data : List Nat, checksum data data.length = data.foldl (· ^^^ ·) 0) ∧
    checksum [] 0 = 0 ∧
    checksum [0x05] 1 = 0x05 ∧
    checksum [0x0F, 0xF0] 2 = 0xFF ∧
    checksum [0x01, 0x02, 0x03] 3 = 0x00 :=
  ⟨checksum_eq_foldl, rfl, by decide, by decide, by decide⟩

/-- C5: on a successful read, `runget` emits exactly two text lines, in
order the decimal value of the record's checksum byte and then the
decimal value of its `value1` field; on a not-ready call it emits
nothing. -/
theorem C5_diagnostic_lines (st : runState) :
    (runget st).serial.output =
      match (tryReadRecord st.serial).1 with
      | some m => st.serial.output ++ [toString m.checksum, toString m.value1]
      | none => st.serial.output := by
  have hf := tryRead_frame st.serial
  simp only [runget]
  cases h : (tryReadRecord st.serial).1 with
  | none => simpa [h] using hf.1
  | some m => simp [h, println, hf.1]

/-- C6: the read path performs no checksum verification: any buffer of
length at least 3 is accepted, and two buffers differing only in byte 2
(the embedded checksum) are both accepted with the same `value1`, so
whether byte 2 matches a recomputed checksum never affects acceptance. -/
theorem C6_no_checksum_verification (b0 b1 c c' : Nat) (rest : List Nat)
    (out : List String) (resp : List Nat) :
    (tryReadRecord ⟨b0 :: b1 :: c :: rest, out, resp⟩).1 =
      some ⟨b0 + 256 * b1, c⟩ ∧
    (tryReadRecord ⟨b0 :: b1 :: c' :: rest, out, resp⟩).1 =
      some ⟨b0 + 256 * b1, c'⟩ ∧
    ((tryReadRecord ⟨b0 :: b1 :: c :: rest, out, resp⟩).1).isSome =
      ((tryReadRecord ⟨b0 :: b1 :: c' :: rest, out, resp⟩).1).isSome := by
  rw [tryRead_cons, tryRead_cons]
  exact ⟨rfl, rfl, rfl⟩

/-- C7: the checksum result is order-independent: permuting the byte
sequence leaves the checksum of the whole buffer unchanged. -/
theorem C7_checksum_perm_invariant (l l' : List Nat) (h : l.Perm l') :
    checksum l l.length = checksum l' l'.length := by
  rw [checksum_eq_foldl, checksum_eq_foldl]
  exact foldl_xor_perm l l' h

/-- Witness for C7 on the permutation `[1, 2, 3] ~ [3, 1, 2]`. -/
theorem C7_checksum_perm_invariant_witness :
    checksum [1, 2, 3] 3 = checksum [3, 1, 2] 3 :=
  C7_checksum_perm_invariant [1, 2, 3] [3, 1, 2] (by decide)

/-- C8: the not-ready case is idempotent: with exactly 2 bytes buffered,
two successive calls to `tryReadRecord` both return nothing and leave
the state exactly as it was, and once a 3rd byte arrives the read
succeeds. -/
theorem C8_not_ready_idempotent (s : SerialState) (b : Nat)
    (h : available s = 2) :
    tryReadRecord s = (none, s) ∧
    tryReadRecord (tryReadRecord s).2 = (none, s) ∧
    ((tryReadRecord { s with buffer := s.buffer ++ [b] }).1).isSome = true := by
  obtain ⟨buf, out, resp⟩ := s
  simp only [available] at h
  match buf, h with
  | [x, y], _ =>
    have h1 := tryRead_lt ⟨[x, y], out, resp⟩ (by simp)
    refine ⟨h1, ?_, ?_⟩
    · rw [h1]
      exact h1
    · simp [tryRead_cons]

/-- Witness for C8 at the concrete two-byte buffer `[7, 9]` with 5 as
the arriving third byte. -/
theorem C8_not_ready_idempotent_witness :
    tryReadRecord ⟨[7, 9], [], []⟩ = (none, ⟨[7, 9], [], []⟩) ∧
    tryReadRecord (tryReadRecord ⟨[7, 9], [], []⟩).2 =
      (none, ⟨[7, 9], [], []⟩) ∧
    ((tryReadRecord ⟨[7, 9, 5], [], []⟩).1).isSome = true :=
  C8_not_ready_idempotent ⟨[7, 9], [], []⟩ 5 (by decide)

/-- C9: `runget` never touches the global `sMsg` instance and never
writes response bytes to the serial link (the response path is commented
out): only the buffer and the two diagnostic lines can change. -/
theorem C9_no_response_path (st : runState) :
    (runget st).sMsg = st.sMsg ∧
    (runget st).serial.responseBytes = st.serial.responseBytes := by
  have hf := tryRead_frame st.serial
  simp only [runget]
  cases h : (tryReadRecord st.serial).1 <;> simp [h, println, hf.2]

/-- C10: `checksum data n` depends only on the first `n` bytes of the
buffer: two buffers agreeing on bytes 0 through `n - 1` yield the same
checksum (and `checksum` is a pure total function of those bytes). -/
theorem C10_checksum_prefix_only (data1 data2 : List Nat) (n : Nat)
    (h : ∀ i, i < n → data1.getD i 0 = data2.getD i 0) :
    checksum data1 n = checksum data2 n := by
  cases n with
  | zero => rfl
  | succ m =>
    rw [checksum, checksum, if_neg (by simp), if_neg (by simp)]
    simp only [Nat.add_sub_cancel]
    rw [h 0 (Nat.succ_pos m)]
    apply List.foldl_ext
    intro acc i hi
    rw [h (i + 1) (Nat.succ_lt_succ (List.mem_range.mp hi))]

/-- Witness for C10 on two buffers agreeing on their first 2 bytes. -/
theorem C10_checksum_prefix_only_witness :
    checksum [1, 2, 9] 2 = checksum [1, 2, 7] 2 :=
  C10_checksum_prefix_only [1, 2, 9] [1, 2, 7] 2 (by decide)

end SerialCtrl
